import Mathlib

/-!
Verification of the LanScope browser network scanner
(src/webscanner/src/app/page.tsx) against its natural-language
specification.

Strings are embedded as lists of characters (`Str`), so that all the
string-processing primitives of the source (trim, split, parseInt,
Number coercion, join, toUpperCase, regex replacement) can be given
executable structural definitions that the kernel can evaluate.
Recursive helpers that are not structurally recursive on their string
argument are written with an explicit fuel parameter (initialised with
the string length), keeping every definition kernel-reducible.
-/

/-- Strings of the JavaScript source, embedded as lists of characters. -/
abbrev Str := List Char

/-- The JavaScript whitespace characters relevant to `trim`, `parseInt`
and the regex class `\s` (restricted to the ASCII range used by the
program). -/
def isJsSpace (c : Char) : Bool :=
  c == ' ' || c == '\t' || c == '\n' || c == '\r' || c == '\x0b' || c == '\x0c'

/-- Drop leading JavaScript whitespace (the leading half of `trim`,
and the whole of the whitespace-skipping done by `parseInt`). -/
def trimL (s : Str) : Str := s.dropWhile isJsSpace

/-- JavaScript `String.prototype.trim`: drop leading and trailing
whitespace. -/
def trimStr (s : Str) : Str := ((trimL s).reverse.dropWhile isJsSpace).reverse

/-- JavaScript `String.prototype.split` with a single-character
separator: split at every occurrence of the separator, keeping empty
fragments (`"a..b".split "." = ["a", "", "b"]`). -/
def splitChar (sep : Char) : Str → List Str
  | [] => [[]]
  | c :: rest =>
    if c = sep then [] :: splitChar sep rest
    else
      match splitChar sep rest with
      | [] => [[c]]
      | h :: t => (c :: h) :: t

/-- JavaScript `String.prototype.split` with the regex `[,\s]+` used by
`parsePorts`: split at every maximal run of separator characters
(fuel-indexed worker; fuel is the length of the remaining input). -/
def splitRunsGo (p : Char → Bool) : Nat → Str → Str → List Str
  | _, [], cur => [cur.reverse]
  | 0, _ :: _, cur => [cur.reverse]
  | fuel + 1, c :: rest, cur =>
    if p c then cur.reverse :: splitRunsGo p fuel (rest.dropWhile p) []
    else splitRunsGo p fuel rest (c :: cur)

/-- Split a string at maximal runs of characters satisfying `p`
(the behaviour of `value.split(/[,\s]+/)` when `p` characterises the
class `[,\s]`). -/
def splitRuns (p : Char → Bool) (s : Str) : List Str := splitRunsGo p s.length s []

/-- JavaScript `Array.prototype.join` with a one-character separator. -/
def joinSep (sep : Char) : List Str → Str
  | [] => []
  | [a] => a
  | a :: b :: t => a ++ sep :: joinSep sep (b :: t)

/-- The decimal digit character of a value below ten. -/
def digitChar (k : Nat) : Char :=
  if k = 0 then '0' else if k = 1 then '1' else if k = 2 then '2'
  else if k = 3 then '3' else if k = 4 then '4' else if k = 5 then '5'
  else if k = 6 then '6' else if k = 7 then '7' else if k = 8 then '8' else '9'

/-- Numeric value of a decimal digit character. -/
def digitVal (c : Char) : Nat := c.toNat - 48

/-- Value of a non-empty string of decimal digits. -/
def digitsVal (s : Str) : Nat := s.foldl (fun acc c => acc * 10 + digitVal c) 0

/-- Parse a string that consists exclusively of decimal digits;
`none` on the empty string or on any non-digit character. -/
def parseDigits (s : Str) : Option Nat :=
  if s = [] then none
  else if s.all (·.isDigit) then some (digitsVal s) else none

/-- Decimal rendering of a natural number (fuel-indexed worker). -/
def natToStrGo : Nat → Nat → Str
  | 0, _ => []
  | fuel + 1, n =>
    if n < 10 then [digitChar n]
    else natToStrGo fuel (n / 10) ++ [digitChar (n % 10)]

/-- Decimal rendering of a natural number, as JavaScript renders a
non-negative integer-valued number. -/
def natToStr (n : Nat) : Str := natToStrGo (n + 1) n

/-- JavaScript rendering of an integer-valued number. -/
def intToStr (v : Int) : Str :=
  if v < 0 then '-' :: natToStr (-v).toNat else natToStr v.toNat

/-- JavaScript `Number(string)` coercion, modelled on the fragment of
number syntax the scanner can meet: after trimming, the empty string
coerces to `0`, an optional sign followed by decimal digits coerces to
the signed value, and anything else is `NaN` (represented as `none`). -/
def jsNumber (s : Str) : Option Int :=
  if trimStr s = [] then some 0
  else if (trimStr s).head? = some '-' then
    (parseDigits (trimStr s).tail).map (fun n => -(n : Int))
  else if (trimStr s).head? = some '+' then
    (parseDigits (trimStr s).tail).map (fun n => (n : Int))
  else (parseDigits (trimStr s)).map (fun n => (n : Int))

/-- The digit run read by `Number.parseInt(s, 10)`: skip leading
whitespace and an optional sign, then take the longest leading run of
decimal digits, ignoring any trailing garbage. -/
def jsParseIntDigits (s : Str) : Str :=
  (if (trimL s).head? = some '-' ∨ (trimL s).head? = some '+' then (trimL s).tail
   else trimL s).takeWhile (·.isDigit)

/-- JavaScript `Number.parseInt(s, 10)`: `NaN` (`none`) when no leading
digit is found, otherwise the value of the digit run, negated under a
leading minus sign. -/
def jsParseInt (s : Str) : Option Int :=
  if jsParseIntDigits s = [] then none
  else if (trimL s).head? = some '-' then some (-(digitsVal (jsParseIntDigits s) : Int))
  else some ((digitsVal (jsParseIntDigits s) : Int))

/-- JavaScript `Math.floor (a / b)` on integer-valued numbers:
floor division. -/
def jsFloorDiv (a b : Int) : Int := Int.fdiv a b

/-- JavaScript remainder `a % b` for a positive modulus: the sign
follows the dividend (truncated remainder). -/
def jsMod (a b : Int) : Int := if 0 ≤ a then a % b else -((-a) % b)

/-- JavaScript `String.prototype.toUpperCase` on the ASCII strings the
program uses. -/
def toUpperStr (s : Str) : Str := s.map Char.toUpper

/-- The character class `[\r\n]` of the regex used by the CSV export. -/
def isNl (c : Char) : Bool := c == '\r' || c == '\n'

/-- `message.replace(/[\r\n]+/g, " ")`: collapse every maximal run of
carriage returns and line feeds into a single space (fuel-indexed
worker). -/
def collapseGo : Nat → Str → Str
  | _, [] => []
  | 0, _ :: _ => []
  | fuel + 1, c :: rest =>
    if isNl c then ' ' :: collapseGo fuel (rest.dropWhile isNl)
    else c :: collapseGo fuel rest

/-- Collapse newline runs to single spaces, as the CSV export does to
error messages. -/
def collapseNewlines (s : Str) : Str := collapseGo s.length s

/-! ## Data model of the scanner (types from src/webscanner/src/app/page.tsx) -/

/-- `type PortStatus = "open" | "closed" | "timeout" | "error"`. -/
inductive PortStatus where
  | open_
  | closed
  | timeout
  | error
deriving DecidableEq, Repr

/-- `type ProtocolHint = "http" | "https"`. -/
inductive ProtocolHint where
  | http
  | https
deriving DecidableEq, Repr

/-- `interface PortResult` of the source. -/
structure PortResult where
  port : Int
  protocol : ProtocolHint
  status : PortStatus
  latency : Option Int
  errorMessage : Option Str
deriving DecidableEq, Repr

/-- `interface HostResult` of the source. -/
structure HostResult where
  ip : Str
  ports : List PortResult
  responded : Bool
deriving DecidableEq, Repr

/-- `const MAX_TARGETS = 2048`. -/
def MAX_TARGETS : Int := 2048

/-- `protocolForPort`: https exactly on the fixed TLS port set
443, 8443, 9443. -/
def protocolForPort (port : Int) : ProtocolHint :=
  if port = 443 ∨ port = 8443 ∨ port = 9443 then .https else .http

/-- `ipToNumber`: trim the input, split on dots, coerce each component
with `Number`; throw `"IP inválido"` unless there are exactly 4
components all of which coerce to a number; otherwise combine the four
components as `p0 * 256 ^ 3 + p1 * 256 ^ 2 + p2 * 256 + p3`.
Note that the source performs no [0,255] range check on components. -/
def ipToNumber (s : Str) : Except Str Int :=
  let nums := (splitChar '.' (trimStr s)).map jsNumber
  match nums with
  | [some a, some b, some c, some d] =>
      .ok (a * 16777216 + b * 65536 + c * 256 + d)
  | _ => .error "IP inválido".data

/-- `numberToIp`: extract the four octet positions with
`Math.floor (value / 256 ^ k) % 256` (the lowest position without the
floor) and join them with dots. -/
def numberToIp (v : Int) : Str :=
  joinSep '.' [intToStr (jsMod (jsFloorDiv v 16777216) 256),
    intToStr (jsMod (jsFloorDiv v 65536) 256),
    intToStr (jsMod (jsFloorDiv v 256) 256),
    intToStr (jsMod v 256)]

/-- The separator class of `value.split(/[,\s]+/)` in `parsePorts`. -/
def isPortSep (c : Char) : Bool := c == ',' || isJsSpace c

/-- The loop body of `parsePorts` on one chunk: parse it with
`Number.parseInt(chunk, 10)` and keep the value only if it is not NaN
and lies in (0, 65535]. -/
def portOfToken (t : Str) : Option Int :=
  match jsParseInt t with
  | some p => if 0 < p ∧ p ≤ 65535 then some p else none
  | none => none

/-- `parsePorts`: split the input on runs of commas and whitespace,
trim the chunks, drop empty chunks, keep the values `portOfToken`
accepts, deduplicate, and sort numerically ascending. The JavaScript
`Set` deduplicates in insertion order; because the result is sorted
immediately afterwards, the insertion order is irrelevant and the
`Set` is modelled by `List.dedup`. -/
def parsePorts (v : Str) : List Int :=
  List.insertionSort (· ≤ ·)
    ((((splitRuns isPortSep v).map trimStr).filter (fun t => !t.isEmpty)).filterMap
      portOfToken).dedup

/-- The body of `buildTargetList` once both boundaries have parsed:
reject an inverted range, reject a range of more than `MAX_TARGETS`
addresses (`total = endValue - startValue + 1`), and render every
address of the inclusive range in ascending order. -/
def buildTargetsFromValues (startValue endValue : Int) : Except Str (List Str) :=
  if endValue < startValue then
    .error "O IP final deve ser maior ou igual ao inicial.".data
  else if MAX_TARGETS < endValue - startValue + 1 then
    .error "Limite máximo de endereços por varredura excedido.".data
  else
    .ok ((List.range (endValue - startValue + 1).toNat).map
      (fun i : Nat => numberToIp (startValue + (i : Int))))

/-- `buildTargetList`: parse both boundaries (propagating their
failures), then expand the range. -/
def buildTargetList (start stop : Str) : Except Str (List Str) :=
  match ipToNumber start with
  | .error e => .error e
  | .ok startValue =>
    match ipToNumber stop with
    | .error e => .error e
    | .ok endValue => buildTargetsFromValues startValue endValue

/-! ## Probe outcome classification -/

/-- The JavaScript error values `mapErrorToStatus` can receive from a
rejected `fetch`: a `DOMException` (carrying its `name`), a
`TypeError`, or any other thrown value, whose `message` property may
be absent. -/
inductive JsErr where
  | domException (name : Str) (message : Str)
  | typeError (message : Str)
  | other (message : Option Str)
deriving DecidableEq, Repr

/-- The `message` read by `(error as Error)?.message ?? "..."`. -/
def jsErrMessage (e : JsErr) : Option Str :=
  match e with
  | .domException _ m => some m
  | .typeError m => some m
  | .other m => m

/-- Whether a string contains another as a contiguous substring
(`String.prototype.includes`). -/
def strIncludes (s pat : Str) : Bool :=
  (List.range (s.length + 1)).any (fun i => pat.isPrefixOf (s.drop i))

/-- `mapErrorToStatus`: an `AbortError` `DOMException` is a timeout, a
`TypeError` whose lowercased message mentions "fetch" is a closed
port, anything else is an error. -/
def mapErrorToStatus (e : JsErr) : PortStatus :=
  match e with
  | .domException name _ => if name = "AbortError".data then .timeout else .error
  | .typeError m => if strIncludes (m.map Char.toLower) "fetch".data then .closed else .error
  | .other _ => .error

/-- The two call sites of `controller.abort()`: the per-probe deadline
timer (`window.setTimeout(() => controller.abort(), timeoutMs)`) and
the user cancellation (`handleCancel` aborting every registered
controller). -/
inductive AbortTrigger where
  | deadline
  | userCancel
deriving DecidableEq, Repr

/-- The exception the runtime delivers to a fetch whose
`AbortController` is aborted: the same `AbortError` `DOMException`
whichever call site triggered the abort. -/
def abortException (_ : AbortTrigger) (message : Str) : JsErr :=
  .domException "AbortError".data message

/-- Outcome of the awaited `fetch` inside `scanPort`: either it
resolves (carrying the elapsed wall-clock time measured with
`performance.now()`), or it rejects with a JavaScript error value. -/
inductive FetchOutcome where
  | success (elapsed : ℚ)
  | failure (e : JsErr)

/-- `scanPort` (the part that builds the returned `PortResult` from the
fetch outcome): on resolution the port is `open` with the rounded
latency; on rejection the status is `mapErrorToStatus` of the error,
with the error message recorded only for status `error` (defaulting to
"Erro desconhecido" when the thrown value has no message). -/
def scanPort (port : Int) (outcome : FetchOutcome) : PortResult :=
  let protocol := protocolForPort port
  match outcome with
  | .success elapsed =>
      { port := port, protocol := protocol, status := .open_
        latency := some (round elapsed), errorMessage := none }
  | .failure e =>
      let status := mapErrorToStatus e
      { port := port, protocol := protocol, status := status
        latency := none
        errorMessage :=
          if status = .error then some ((jsErrMessage e).getD "Erro desconhecido".data)
          else none }

/-- Port-level status tests used by `scanHost` and the statistics. -/
def isOpen (r : PortResult) : Bool :=
  match r.status with
  | .open_ => true
  | _ => false

/-- Whether a probe result has status `timeout`. -/
def isTimeout (r : PortResult) : Bool :=
  match r.status with
  | .timeout => true
  | _ => false

/-- Whether a probe result has status `error`. -/
def isErrorStatus (r : PortResult) : Bool :=
  match r.status with
  | .error => true
  | _ => false

/-- The `responded` expression of `scanHost`:
`portResults.some(open) || portResults.every(timeout)`. -/
def respondedCalc (rs : List PortResult) : Bool :=
  rs.any isOpen || rs.all isTimeout

/-- `scanHost`: probe every requested port (the `Promise.all` keeps the
requested port order) and aggregate into a `HostResult` with the
`responded` flag. The probe outcomes are supplied by `probe`. -/
def scanHost (ip : Str) (ports : List Int) (probe : Int → FetchOutcome) : HostResult :=
  let portResults := ports.map (fun p => scanPort p (probe p))
  { ip := ip, ports := portResults, responded := respondedCalc portResults }

/-- The `failedHost` fallback of the worker loop in `handleScan`: every
port marked `error` with the shared error message (defaulting to
"Falha desconhecida"), `responded` hard-coded to `false`. -/
def mkFailedHost (ip : Str) (message : Option Str) (ports : List Int) : HostResult :=
  { ip := ip
    responded := false
    ports := ports.map (fun port =>
      { port := port, protocol := protocolForPort port, status := .error
        latency := none
        errorMessage := some (message.getD "Falha desconhecida".data) }) }

/-! ## The worker loop of handleScan -/

/-- What happens when a worker processes one host: either `scanHost`
completes (with the fetch outcome of every port), or an unexpected
internal error is thrown, carrying an optional message. -/
abbrev HostOracle := Str → Except (Option Str) (Int → FetchOutcome)

/-- One worker iteration body for a dequeued ip: the `try` block builds
the `HostResult` via `scanHost`; the `catch` block builds the
`failedHost` fallback. -/
def processHost (ports : List Int) (oracle : HostOracle) (ip : Str) : HostResult :=
  match oracle ip with
  | .ok probe => scanHost ip ports probe
  | .error msg => mkFailedHost ip msg ports

/-- Observable outcome of a scan run: the published `HostResult` list
(in completion order), the final value of the completed-host counter,
and the successive values the counter takes (the progress trace). -/
structure RunOutcome where
  results : List HostResult
  progress : Nat
  trace : List Nat
deriving DecidableEq, Repr

/-- The sequential (concurrency 1) worker loop of `handleScan`:
`while (queue.length > 0 && !cancelRequestedRef.current)` dequeue one
ip (returning early on a falsy, i.e. empty, ip), process it — with the
`catch` fallback on an internal error — append exactly one
`HostResult`, and increment the progress counter exactly once in the
`finally`. `cancel k` is the value of the cancellation flag observed
before host number `k` is dequeued, modelling a cancellation request
arriving at any point of the run. -/
def runFrom (ports : List Int) (oracle : HostOracle) (cancel : Nat → Bool) :
    List Str → Nat → RunOutcome
  | [], k => ⟨[], k, [k]⟩
  | ip :: rest, k =>
    if cancel k then ⟨[], k, [k]⟩
    else if ip.isEmpty then ⟨[], k, [k]⟩
    else
      let hr := processHost ports oracle ip
      let o := runFrom ports oracle cancel rest (k + 1)
      ⟨hr :: o.results, o.progress, k :: o.trace⟩

/-- A whole scan run over a target list, starting with the counter at
zero. -/
def runScan (targets : List Str) (ports : List Int) (oracle : HostOracle)
    (cancel : Nat → Bool) : RunOutcome :=
  runFrom ports oracle cancel targets 0

/-! ## The cancel handler -/

/-- An `AbortController`, observable through its aborted flag. -/
structure AbortController where
  aborted : Bool
deriving DecidableEq, Repr

/-- The component state touched by `handleCancel`: the cancellation
ref, the registered controllers, and the `statusMessage`, `isScanning`,
`results` and `progress` React states. -/
structure UiState where
  cancelRequested : Bool
  controllers : List AbortController
  statusMessage : Option Str
  isScanning : Bool
  results : List HostResult
  progressCurrent : Nat
  progressTotal : Nat
deriving DecidableEq, Repr

/-- The status message set by `handleCancel`. -/
def interruptedMsg : Str := "Varredura interrompida pelo usuário.".data

/-- The initial component state (the `useState` / `useRef` initial
values): no cancellation requested, no controllers, no status message,
not scanning, no results, progress 0 of 0. This is the Idle state. -/
def initialState : UiState :=
  { cancelRequested := false, controllers := [], statusMessage := none
    isScanning := false, results := [], progressCurrent := 0, progressTotal := 0 }

/-- `handleCancel`: set the cancellation flag, abort and clear every
registered controller, set the interrupted status message, stop
scanning. The results and the progress counters are not touched. -/
def handleCancel (s : UiState) : UiState :=
  { s with cancelRequested := true, controllers := []
           statusMessage := some interruptedMsg, isScanning := false }

/-! ## CSV export (handleDownload) -/

/-- The literal status strings of the source union type. -/
def statusText (st : PortStatus) : Str :=
  match st with
  | .open_ => "open".data
  | .closed => "closed".data
  | .timeout => "timeout".data
  | .error => "error".data

/-- The literal protocol strings of the source union type. -/
def protocolText (p : ProtocolHint) : Str :=
  match p with
  | .http => "http".data
  | .https => "https".data

/-- The fixed CSV header row of `handleDownload`. -/
def csvHeader : Str := "IP,Porta,Protocolo,Status,Latência(ms),Mensagem".data

/-- One CSV data row: the six columns joined with commas — ip, port,
uppercased protocol, uppercased status, latency or empty (`?? ""`),
and the error message with newline runs collapsed to spaces, or empty
(the source uses JavaScript truthiness, so a missing and an empty
message both render empty). -/
def csvLine (ip : Str) (r : PortResult) : Str :=
  joinSep ',' [ip, intToStr r.port, toUpperStr (protocolText r.protocol),
    toUpperStr (statusText r.status),
    (match r.latency with
     | some v => intToStr v
     | none => []),
    (match r.errorMessage with
     | some m => if m.isEmpty then [] else collapseNewlines m
     | none => [])]

/-- The row list of the CSV export: the fixed header followed by one
row per (host, port) pair, hosts in order, each host contributing its
ports in order (`results.flatMap`, written as map-then-join). -/
def csvLines (hosts : List HostResult) : List Str :=
  csvHeader :: (hosts.map (fun h => h.ports.map (csvLine h.ip))).flatten

/-- `serializeCsv`: the full CSV text, rows joined with `"\n"`. -/
def serializeCsv (hosts : List HostResult) : Str :=
  joinSep '\n' (csvLines hosts)

/-- The numeric value of an address string, with default 0 for an
unparsable address — used to state that rendered target lists are
numerically ascending. -/
def ipValue (s : Str) : Int :=
  match ipToNumber s with
  | .ok v => v
  | .error _ => 0

/-- Modelled from the spec side, for comparison with the code: a token
that "is a base-10 integer" in the sense of the specification of
`parsePorts` — a non-empty string consisting exclusively of decimal
digits. -/
def isBase10IntegerToken (t : Str) : Bool := !t.isEmpty && t.all (·.isDigit)

/-! ## Basic lemmas about the string infrastructure -/

theorem dropWhile_eq_self_of (p : Char → Bool) (s : Str)
    (h : ∀ c ∈ s, p c = false) : s.dropWhile p = s := by
  cases s with
  | nil => rfl
  | cons c rest =>
    rw [List.dropWhile_cons, h c (List.mem_cons_self c rest)]
    simp

theorem trimStr_eq_self_of (s : Str) (h : ∀ c ∈ s, isJsSpace c = false) :
    trimStr s = s := by
  unfold trimStr trimL
  rw [dropWhile_eq_self_of _ _ h]
  rw [dropWhile_eq_self_of _ _ (fun c hc => h c (List.mem_reverse.mp hc))]
  exact List.reverse_reverse s

theorem isDigit_digitChar (k : Nat) : (digitChar k).isDigit = true := by
  unfold digitChar
  repeat' split
  all_goals decide

theorem digitVal_digitChar (k : Nat) (h : k < 10) : digitVal (digitChar k) = k := by
  interval_cases k <;> decide

theorem not_space_of_isDigit (c : Char) (h : c.isDigit = true) :
    isJsSpace c = false := by
  by_contra hs
  rw [Bool.not_eq_false] at hs
  unfold isJsSpace at hs
  simp only [Bool.or_eq_true, beq_iff_eq] at hs
  rcases hs with ((((h1 | h1) | h1) | h1) | h1) | h1 <;> subst h1 <;> simp at h

theorem ne_of_isDigit (c d : Char) (h : c.isDigit = true) (hd : d.isDigit = false) :
    c ≠ d := by
  intro he
  subst he
  rw [h] at hd
  exact absurd hd (by simp)

theorem natToStrGo_spec : ∀ fuel n, n < fuel →
    natToStrGo fuel n ≠ [] ∧ (∀ c ∈ natToStrGo fuel n, c.isDigit = true) ∧
      digitsVal (natToStrGo fuel n) = n := by
  intro fuel
  induction fuel with
  | zero => intro n h; omega
  | succ fuel ih =>
    intro n h
    unfold natToStrGo
    by_cases hn : n < 10
    · rw [if_pos hn]
      refine ⟨by simp, ?_, ?_⟩
      · intro c hc
        rw [List.mem_singleton] at hc
        subst hc
        exact isDigit_digitChar n
      · unfold digitsVal
        simp [digitVal_digitChar n hn]
    · rw [if_neg hn]
      have hdiv : n / 10 < fuel := by
        have h1 : n / 10 < n := Nat.div_lt_self (by omega) (by omega)
        omega
      obtain ⟨hne, hdig, hval⟩ := ih (n / 10) hdiv
      refine ⟨by simp, ?_, ?_⟩
      · intro c hc
        rw [List.mem_append] at hc
        rcases hc with hc | hc
        · exact hdig c hc
        · rw [List.mem_singleton] at hc
          subst hc
          exact isDigit_digitChar _
      · unfold digitsVal at hval ⊢
        rw [List.foldl_append, hval]
        simp only [List.foldl_cons, List.foldl_nil]
        rw [digitVal_digitChar _ (Nat.mod_lt n (by omega))]
        omega

theorem natToStr_ne_nil (n : Nat) : natToStr n ≠ [] :=
  (natToStrGo_spec (n + 1) n (Nat.lt_succ_self n)).1

theorem mem_natToStr_isDigit (n : Nat) (c : Char) (hc : c ∈ natToStr n) :
    c.isDigit = true :=
  (natToStrGo_spec (n + 1) n (Nat.lt_succ_self n)).2.1 c hc

theorem digitsVal_natToStr (n : Nat) : digitsVal (natToStr n) = n :=
  (natToStrGo_spec (n + 1) n (Nat.lt_succ_self n)).2.2

theorem parseDigits_natToStr (n : Nat) : parseDigits (natToStr n) = some n := by
  unfold parseDigits
  rw [if_neg (natToStr_ne_nil n), if_pos, digitsVal_natToStr]
  rw [List.all_eq_true]
  intro c hc
  exact mem_natToStr_isDigit n c hc

theorem splitChar_cons_self (sep : Char) (rest : Str) :
    splitChar sep (sep :: rest) = [] :: splitChar sep rest := by
  conv_lhs => unfold splitChar
  rw [if_pos rfl]

theorem splitChar_cons_ne (sep c : Char) (rest : Str) (h : c ≠ sep) :
    splitChar sep (c :: rest) =
      match splitChar sep rest with
      | [] => [[c]]
      | hd :: t => (c :: hd) :: t := by
  conv_lhs => unfold splitChar
  rw [if_neg h]

theorem splitChar_ne_nil (sep : Char) (s : Str) : splitChar sep s ≠ [] := by
  induction s with
  | nil => simp [splitChar]
  | cons c rest ih =>
    unfold splitChar
    split
    · simp
    · cases h : splitChar sep rest with
      | nil => simp
      | cons a t => simp

theorem splitChar_of_not_mem (sep : Char) (s : Str) (h : sep ∉ s) :
    splitChar sep s = [s] := by
  induction s with
  | nil => rfl
  | cons c rest ih =>
    have hc : c ≠ sep := fun he => h (he ▸ List.mem_cons_self c rest)
    have hrest : sep ∉ rest := fun hm => h (List.mem_cons_of_mem c hm)
    rw [splitChar_cons_ne sep c rest hc, ih hrest]

theorem splitChar_append (sep : Char) (xs rest : Str) (h : sep ∉ xs) :
    splitChar sep (xs ++ sep :: rest) = xs :: splitChar sep rest := by
  induction xs with
  | nil =>
    simp only [List.nil_append]
    exact splitChar_cons_self sep rest
  | cons x xs ih =>
    have hx : x ≠ sep := fun he => h (he ▸ List.mem_cons_self x xs)
    have hxs : sep ∉ xs := fun hm => h (List.mem_cons_of_mem x hm)
    simp only [List.cons_append]
    rw [splitChar_cons_ne sep x _ hx, ih hxs]

theorem splitChar_joinSep (sep : Char) (parts : List Str) (hne : parts ≠ [])
    (hfree : ∀ p ∈ parts, sep ∉ p) :
    splitChar sep (joinSep sep parts) = parts := by
  induction parts with
  | nil => exact absurd rfl hne
  | cons a t ih =>
    cases t with
    | nil =>
      unfold joinSep
      exact splitChar_of_not_mem sep a (hfree a (List.mem_cons_self a []))
    | cons b t2 =>
      have ha : sep ∉ a := hfree a (List.mem_cons_self a _)
      have hrest : ∀ p ∈ b :: t2, sep ∉ p := fun p hp =>
        hfree p (List.mem_cons_of_mem a hp)
      show splitChar sep (a ++ sep :: joinSep sep (b :: t2)) = a :: b :: t2
      rw [splitChar_append sep a _ ha, ih (by simp) hrest]

theorem mem_joinSep (sep : Char) (parts : List Str) (c : Char)
    (h : c ∈ joinSep sep parts) : c = sep ∨ ∃ p ∈ parts, c ∈ p := by
  induction parts with
  | nil => simp [joinSep] at h
  | cons a t ih =>
    cases t with
    | nil =>
      right
      exact ⟨a, List.mem_cons_self a [], h⟩
    | cons b t2 =>
      rw [show joinSep sep (a :: b :: t2) = a ++ sep :: joinSep sep (b :: t2) from rfl,
        List.mem_append, List.mem_cons] at h
      rcases h with h | h | h
      · right
        exact ⟨a, List.mem_cons_self a _, h⟩
      · left
        exact h
      · rcases ih h with h2 | ⟨p, hp, hcp⟩
        · left
          exact h2
        · right
          exact ⟨p, List.mem_cons_of_mem a hp, hcp⟩

theorem jsNumber_of_digits (s : Str) (hne : s ≠ [])
    (hdig : ∀ c ∈ s, c.isDigit = true) :
    jsNumber s = (parseDigits s).map (fun n => (n : Int)) := by
  have htrim : trimStr s = s :=
    trimStr_eq_self_of s (fun c hc => not_space_of_isDigit c (hdig c hc))
  obtain ⟨c, cs, rfl⟩ := List.exists_cons_of_ne_nil hne
  have hcdig : c.isDigit = true := hdig c (List.mem_cons_self c cs)
  unfold jsNumber
  rw [htrim]
  rw [if_neg (by simp)]
  rw [if_neg (by
    simp only [List.head?_cons, Option.some.injEq]
    exact ne_of_isDigit c '-' hcdig (by decide))]
  rw [if_neg (by
    simp only [List.head?_cons, Option.some.injEq]
    exact ne_of_isDigit c '+' hcdig (by decide))]

theorem jsNumber_natToStr (n : Nat) : jsNumber (natToStr n) = some (n : Int) := by
  rw [jsNumber_of_digits _ (natToStr_ne_nil n) (mem_natToStr_isDigit n),
    parseDigits_natToStr]
  rfl

/-! ## Lemmas about numberToIp and ipToNumber -/

theorem jsFloorDiv_coe (m k : Nat) :
    jsFloorDiv (m : Int) (k : Int) = ((m / k : Nat) : Int) :=
  (Int.ofNat_fdiv m k).symm

theorem jsMod_coe (m k : Nat) :
    jsMod (m : Int) (k : Int) = ((m % k : Nat) : Int) := by
  unfold jsMod
  rw [if_pos (Int.ofNat_nonneg m)]
  exact (Int.ofNat_emod m k).symm

theorem intToStr_coe (m : Nat) : intToStr (m : Int) = natToStr m := by
  unfold intToStr
  rw [if_neg (by omega)]
  simp

theorem numberToIp_coe (n : Nat) :
    numberToIp (n : Int) =
      joinSep '.' [natToStr (n / 16777216 % 256), natToStr (n / 65536 % 256),
        natToStr (n / 256 % 256), natToStr (n % 256)] := by
  unfold numberToIp
  have e1 : (16777216 : Int) = ((16777216 : Nat) : Int) := by norm_cast
  have e2 : (65536 : Int) = ((65536 : Nat) : Int) := by norm_cast
  have e3 : (256 : Int) = ((256 : Nat) : Int) := by norm_cast
  rw [e1, e2, e3]
  rw [jsFloorDiv_coe n 16777216, jsFloorDiv_coe n 65536, jsFloorDiv_coe n 256]
  rw [jsMod_coe _ 256, jsMod_coe _ 256, jsMod_coe _ 256, jsMod_coe n 256]
  rw [intToStr_coe, intToStr_coe, intToStr_coe, intToStr_coe]

theorem mem_numberToIp_coe (n : Nat) (c : Char) (hc : c ∈ numberToIp (n : Int)) :
    c = '.' ∨ c.isDigit = true := by
  rw [numberToIp_coe] at hc
  rcases mem_joinSep '.' _ c hc with h | ⟨p, hp, hcp⟩
  · exact Or.inl h
  · right
    simp only [List.mem_cons, List.not_mem_nil, or_false] at hp
    rcases hp with rfl | rfl | rfl | rfl
    all_goals exact mem_natToStr_isDigit _ c hcp

theorem splitChar_numberToIp (n : Nat) :
    splitChar '.' (trimStr (numberToIp (n : Int))) =
      [natToStr (n / 16777216 % 256), natToStr (n / 65536 % 256),
        natToStr (n / 256 % 256), natToStr (n % 256)] := by
  rw [trimStr_eq_self_of _ (fun c hc => by
    rcases mem_numberToIp_coe n c hc with rfl | hd
    · decide
    · exact not_space_of_isDigit c hd)]
  rw [numberToIp_coe]
  apply splitChar_joinSep
  · simp
  · intro p hp
    simp only [List.mem_cons, List.not_mem_nil, or_false] at hp
    rcases hp with rfl | rfl | rfl | rfl
    all_goals
      intro hdot
      exact absurd (mem_natToStr_isDigit _ '.' hdot) (by decide)

theorem ip_roundtrip (n : Nat) (h : n < 4294967296) :
    ipToNumber (numberToIp (n : Int)) = .ok (n : Int) := by
  unfold ipToNumber
  rw [splitChar_numberToIp n]
  simp only [List.map_cons, List.map_nil, jsNumber_natToStr]
  show Except.ok _ = Except.ok _
  congr 1
  push_cast
  omega

theorem ip_roundtrip_int (v : Int) (h0 : 0 ≤ v) (h1 : v < 4294967296) :
    ipToNumber (numberToIp v) = .ok v := by
  rw [← Int.toNat_of_nonneg h0]
  exact ip_roundtrip v.toNat (by omega)

theorem ipValue_numberToIp (v : Int) (h0 : 0 ≤ v) (h1 : v < 4294967296) :
    ipValue (numberToIp v) = v := by
  unfold ipValue
  rw [ip_roundtrip_int v h0 h1]

/-! ## Claim C9 -/

/-- C9: for every 32-bit unsigned integer n, converting n to
dotted-quad text and parsing the text back yields n again
(`ipToNumber (numberToIp n) = ok n`), and the numeric-to-text
conversion produces exactly 4 dot-separated components, each a digit
string with value in [0, 255]. -/
theorem C9_roundtrip_and_octets (n : Nat) (h : n < 4294967296) :
    ipToNumber (numberToIp (n : Int)) = .ok (n : Int) ∧
    (splitChar '.' (numberToIp (n : Int))).length = 4 ∧
    ∀ c ∈ splitChar '.' (numberToIp (n : Int)),
      ∃ v : Nat, v ≤ 255 ∧ parseDigits c = some v := by
  have htrim : trimStr (numberToIp (n : Int)) = numberToIp (n : Int) :=
    trimStr_eq_self_of _ (fun c hc => by
      rcases mem_numberToIp_coe n c hc with rfl | hd
      · decide
      · exact not_space_of_isDigit c hd)
  have hsplit := splitChar_numberToIp n
  rw [htrim] at hsplit
  refine ⟨ip_roundtrip n h, ?_, ?_⟩
  · rw [hsplit]
    rfl
  · rw [hsplit]
    intro c hc
    simp only [List.mem_cons, List.not_mem_nil, or_false] at hc
    rcases hc with rfl | rfl | rfl | rfl
    · exact ⟨n / 16777216 % 256, by omega, parseDigits_natToStr _⟩
    · exact ⟨n / 65536 % 256, by omega, parseDigits_natToStr _⟩
    · exact ⟨n / 256 % 256, by omega, parseDigits_natToStr _⟩
    · exact ⟨n % 256, by omega, parseDigits_natToStr _⟩

/-- Witness for C9 at n = 3232235521 (the address 192.168.0.1). -/
theorem C9_roundtrip_and_octets_witness :
    3232235521 < 4294967296 ∧
    (ipToNumber (numberToIp ((3232235521 : Nat) : Int)) = .ok ((3232235521 : Nat) : Int) ∧
    (splitChar '.' (numberToIp ((3232235521 : Nat) : Int))).length = 4 ∧
    ∀ c ∈ splitChar '.' (numberToIp ((3232235521 : Nat) : Int)),
      ∃ v : Nat, v ≤ 255 ∧ parseDigits c = some v) :=
  ⟨by norm_num, C9_roundtrip_and_octets 3232235521 (by norm_num)⟩


/-! ## Claim C4 -/

/-- C4: for every valid boundary pair — both boundaries parse, the
parsed values are octet-range addresses (non-negative, below 2^32),
the end is not below the start, and the inclusive count is within the
2048 cap — `buildTargetList` succeeds and returns exactly
end − start + 1 addresses; the i-th address parses back to start + i,
the list is strictly ascending in numeric value (the `Pairwise`
clause), and the first and last elements are the canonical dotted-quad
renderings of the start and end values. -/
theorem C4_expand_valid_range (start stop : Str) (sv ev : Int)
    (hs : ipToNumber start = .ok sv) (he : ipToNumber stop = .ok ev)
    (hnn : 0 ≤ sv) (hub : ev < 4294967296)
    (hle : sv ≤ ev) (hcap : ev - sv + 1 ≤ 2048) :
    ∃ l, buildTargetList start stop = .ok l ∧
      l.length = (ev - sv + 1).toNat ∧
      l.head? = some (numberToIp sv) ∧
      l.getLast? = some (numberToIp ev) ∧
      (∀ i, ∀ hi : i < l.length, ipToNumber (l.get ⟨i, hi⟩) = .ok (sv + (i : Int))) ∧
      l.Pairwise (fun a b => ipValue a < ipValue b) := by
  have hbt : buildTargetList start stop = buildTargetsFromValues sv ev := by
    unfold buildTargetList
    rw [hs, he]
  have hM : ¬ (MAX_TARGETS < ev - sv + 1) := by
    show ¬ ((2048 : Int) < ev - sv + 1)
    omega
  have hbv : buildTargetsFromValues sv ev =
      .ok ((List.range (ev - sv + 1).toNat).map
        (fun i : Nat => numberToIp (sv + (i : Int)))) := by
    unfold buildTargetsFromValues
    rw [if_neg (by omega), if_neg hM]
  refine ⟨(List.range (ev - sv + 1).toNat).map
    (fun i : Nat => numberToIp (sv + (i : Int))), ?_, ?_, ?_, ?_, ?_, ?_⟩
  · rw [hbt, hbv]
  · simp
  · have hk : (ev - sv + 1).toNat = (ev - sv).toNat + 1 := by omega
    rw [hk, List.head?_map, List.head?_range, if_neg (by omega)]
    simp only [Option.map_some']
    norm_num
  · rw [List.getLast?_map, List.getLast?_range, if_neg (by omega)]
    simp only [Option.map_some', Option.some.injEq]
    have : (sv + (((ev - sv + 1).toNat - 1 : Nat) : Int)) = ev := by omega
    rw [this]
  · intro i hi
    simp only [List.length_map, List.length_range] at hi
    rw [List.get_eq_getElem]
    simp only [List.getElem_map, List.getElem_range]
    exact ip_roundtrip_int (sv + (i : Int)) (by omega) (by omega)
  · rw [List.pairwise_map]
    apply List.Pairwise.imp_of_mem ?_ (List.pairwise_lt_range _)
    intro a b ha hb hab
    rw [List.mem_range] at ha hb
    rw [ipValue_numberToIp (sv + (a : Int)) (by omega) (by omega),
      ipValue_numberToIp (sv + (b : Int)) (by omega) (by omega)]
    omega

/-- Witness for C4: the range 10.0.0.1 to 10.0.0.3. -/
theorem C4_expand_valid_range_witness :
    (ipToNumber "10.0.0.1".data = .ok 167772161 ∧
      ipToNumber "10.0.0.3".data = .ok 167772163 ∧
      (0 : Int) ≤ 167772161 ∧ (167772163 : Int) < 4294967296 ∧
      (167772161 : Int) ≤ 167772163 ∧ (167772163 : Int) - 167772161 + 1 ≤ 2048) ∧
    ∃ l, buildTargetList "10.0.0.1".data "10.0.0.3".data = .ok l ∧
      l.length = ((167772163 : Int) - 167772161 + 1).toNat ∧
      l.head? = some (numberToIp 167772161) ∧
      l.getLast? = some (numberToIp 167772163) ∧
      (∀ i, ∀ hi : i < l.length, ipToNumber (l.get ⟨i, hi⟩) = .ok (167772161 + (i : Int))) ∧
      l.Pairwise (fun a b => ipValue a < ipValue b) :=
  ⟨⟨by rfl, by rfl, by norm_num, by norm_num, by norm_num, by norm_num⟩,
    C4_expand_valid_range "10.0.0.1".data "10.0.0.3".data 167772161 167772163
      (by rfl) (by rfl) (by norm_num) (by norm_num) (by norm_num) (by norm_num)⟩

/-! ## Claim C2 -/

theorem ipToNumber_error_iff (s : Str) :
    (∃ e, ipToNumber s = .error e) ↔
      ¬((splitChar '.' (trimStr s)).length = 4 ∧
        ∀ c ∈ splitChar '.' (trimStr s), (jsNumber c).isSome = true) := by
  unfold ipToNumber
  generalize splitChar '.' (trimStr s) = parts
  rcases parts with _ | ⟨a, _ | ⟨b, _ | ⟨c, _ | ⟨d, _ | ⟨e2, rest⟩⟩⟩⟩⟩
  · simp
  · simp
  · simp
  · simp
  · simp only [List.map_cons, List.map_nil]
    cases ha : jsNumber a <;> cases hb : jsNumber b <;> cases hc : jsNumber c <;>
      cases hd : jsNumber d <;> simp [ha, hb, hc, hd]
  · simp

/-- C2 counterexample: the claim says an input with a component outside
[0, 255] such as "256.0.0.1" or "1.2.3.999" is rejected with
InvalidAddressFormat; the code accepts both — "256.0.0.1" parses to
4294967297 and "1.2.3.999" to 16910055, and range expansion on the
boundary "256.0.0.1" succeeds (rendering the wrapped-around address
0.0.0.1) instead of failing. -/
theorem C2_no_range_check_counterexample :
    ipToNumber "256.0.0.1".data = .ok 4294967297 ∧
    ipToNumber "1.2.3.999".data = .ok 16910055 ∧
    buildTargetList "256.0.0.1".data "256.0.0.1".data = .ok ["0.0.0.1".data] :=
  ⟨by rfl, by rfl, by rfl⟩

/-- C2 amended: boundary parsing fails (with the single error message
"IP inválido") exactly when the trimmed boundary does not split on
dots into exactly 4 components each of which coerces to a number —
there is no [0, 255] range check, so components of any magnitude are
accepted: "256.0.0.1" parses to 4294967297 and "1.2.3.999" to
16910055. -/
theorem C2_amended_failure_characterisation :
    (∀ s : Str, (∃ e, ipToNumber s = .error e) ↔
      ¬((splitChar '.' (trimStr s)).length = 4 ∧
        ∀ c ∈ splitChar '.' (trimStr s), (jsNumber c).isSome = true)) ∧
    ipToNumber "256.0.0.1".data = .ok 4294967297 ∧
    ipToNumber "1.2.3.999".data = .ok 16910055 :=
  ⟨ipToNumber_error_iff, by rfl, by rfl⟩

/-! ## Claim C3 -/

theorem jsParseInt_nil : jsParseInt [] = none := rfl

theorem portOfToken_eq_some (t : Str) (p : Int) :
    portOfToken t = some p ↔ jsParseInt t = some p ∧ 0 < p ∧ p ≤ 65535 := by
  unfold portOfToken
  cases h : jsParseInt t with
  | none => simp
  | some q =>
    show (if 0 < q ∧ q ≤ 65535 then some q else none) = some p ↔
      some q = some p ∧ 0 < p ∧ p ≤ 65535
    by_cases hq : 0 < q ∧ q ≤ 65535
    · rw [if_pos hq]
      constructor
      · intro h2
        rw [Option.some.injEq] at h2
        subst h2
        exact ⟨rfl, hq⟩
      · rintro ⟨h2, _⟩
        rw [Option.some.injEq] at h2
        subst h2
        rfl
    · rw [if_neg hq]
      constructor
      · intro h2
        exact absurd h2 (by simp)
      · rintro ⟨h2, hp⟩
        rw [Option.some.injEq] at h2
        subst h2
        exact absurd hp hq

theorem mem_parsePorts_iff (v : Str) (p : Int) :
    p ∈ parsePorts v ↔
      ∃ c ∈ splitRuns isPortSep v,
        jsParseInt (trimStr c) = some p ∧ 0 < p ∧ p ≤ 65535 := by
  unfold parsePorts
  rw [(List.perm_insertionSort _ _).mem_iff, List.mem_dedup, List.mem_filterMap]
  constructor
  · rintro ⟨t, ht, hft⟩
    rw [List.mem_filter] at ht
    obtain ⟨htmem, _⟩ := ht
    rw [List.mem_map] at htmem
    obtain ⟨c, hc, rfl⟩ := htmem
    exact ⟨c, hc, (portOfToken_eq_some _ p).mp hft⟩
  · rintro ⟨c, hc, hparse, hlo, hhi⟩
    refine ⟨trimStr c, ?_, (portOfToken_eq_some _ p).mpr ⟨hparse, hlo, hhi⟩⟩
    rw [List.mem_filter]
    constructor
    · rw [List.mem_map]
      exact ⟨c, hc, rfl⟩
    · have : trimStr c ≠ [] := by
        intro he
        rw [he, jsParseInt_nil] at hparse
        exact absurd hparse (by simp)
      simpa using this

theorem parsePorts_pairwise_lt (v : Str) : (parsePorts v).Pairwise (· < ·) := by
  unfold parsePorts
  have hs := List.sorted_insertionSort (· ≤ ·)
    ((((splitRuns isPortSep v).map trimStr).filter (fun t => !t.isEmpty)).filterMap
      portOfToken).dedup
  have hn : (List.insertionSort (· ≤ ·)
      ((((splitRuns isPortSep v).map trimStr).filter (fun t => !t.isEmpty)).filterMap
        portOfToken).dedup).Nodup :=
    ((List.perm_insertionSort _ _).nodup_iff).mpr (List.nodup_dedup _)
  exact (List.Pairwise.and hs hn).imp (fun hab => lt_of_le_of_ne hab.1 hab.2)

/-- C3 counterexample: the claim says a token is accepted only if the
token itself is a base-10 integer; the token "80abc" is not a base-10
integer, yet `parseInt` reads its leading digits and `parsePorts`
returns [80] for the input "80abc" (a single token) instead of
discarding it. -/
theorem C3_nonint_token_counterexample :
    parsePorts "80abc".data = [80] ∧
    splitRuns isPortSep "80abc".data = ["80abc".data] ∧
    isBase10IntegerToken "80abc".data = false :=
  ⟨by rfl, by rfl, by rfl⟩

/-- C3 amended: a token contributes a port exactly when
`Number.parseInt(token, 10)` — which reads the longest leading signed
digit run and ignores trailing garbage, so a non-integer token such as
"80abc" is accepted as 80 — yields a value strictly within
[1, 65535]; non-numeric and out-of-range tokens are silently
discarded, the result is deduplicated and strictly ascending, and
`parse("80, 443 ,, abc, 99999, 22")` returns [22, 80, 443]. -/
theorem C3_amended_parsePorts_spec :
    (∀ v : Str, (parsePorts v).Pairwise (· < ·)) ∧
    (∀ v : Str, ∀ p : Int, p ∈ parsePorts v ↔
      ∃ c ∈ splitRuns isPortSep v,
        jsParseInt (trimStr c) = some p ∧ 0 < p ∧ p ≤ 65535) ∧
    parsePorts "80, 443 ,, abc, 99999, 22".data = [22, 80, 443] :=
  ⟨parsePorts_pairwise_lt, mem_parsePorts_iff, by rfl⟩


/-! ## Claim C6 -/

theorem mapErrorToStatus_ne_open (e : JsErr) : mapErrorToStatus e ≠ .open_ := by
  unfold mapErrorToStatus
  split <;> (try split) <;> simp

/-- C6: a single probe is a total function of its fetch outcome (it
always completes and never raises — every failure is turned into a
status, never propagated): a resolved fetch yields status `open`, a
rejected fetch yields `mapErrorToStatus` of the error (one of closed,
timeout, error — never open), the latency field is present exactly
when the status is `open`, and the error message is present exactly
when the status is `error`. -/
theorem C6_probe_total_classification (port : Int) (outcome : FetchOutcome) :
    ((scanPort port outcome).latency.isSome = true ↔
      (scanPort port outcome).status = .open_) ∧
    ((scanPort port outcome).errorMessage.isSome = true ↔
      (scanPort port outcome).status = .error) ∧
    (∀ t, outcome = .success t → (scanPort port outcome).status = .open_) ∧
    (∀ e, outcome = .failure e →
      (scanPort port outcome).status = mapErrorToStatus e ∧
      mapErrorToStatus e ≠ .open_) ∧
    (scanPort port outcome).port = port := by
  cases outcome with
  | success t =>
    refine ⟨?_, ?_, fun t2 _ => rfl, fun e he => by simp at he, rfl⟩
    · simp [scanPort]
    · simp [scanPort]
  | failure e =>
    have hne : mapErrorToStatus e ≠ .open_ := mapErrorToStatus_ne_open e
    have hstat : (scanPort port (.failure e)).status = mapErrorToStatus e := rfl
    have hlat : (scanPort port (.failure e)).latency = none := rfl
    have hmsg : (scanPort port (.failure e)).errorMessage =
        if mapErrorToStatus e = .error then
          some ((jsErrMessage e).getD "Erro desconhecido".data)
        else none := rfl
    refine ⟨?_, ?_, fun t2 ht => by simp at ht, fun e2 he2 => ?_, rfl⟩
    · rw [hlat, hstat]
      exact iff_of_false (by simp) hne
    · rw [hmsg, hstat]
      by_cases h : mapErrorToStatus e = .error
      · rw [if_pos h]
        simpa using h
      · rw [if_neg h]
        exact iff_of_false (by simp) h
    · injection he2 with h2
      subst h2
      exact ⟨hstat, hne⟩

/-! ## Claim C10 -/

/-- C10: whichever call site triggers the abort — the per-probe
deadline timer or the user cancellation aborting every registered
controller — the aborted fetch rejects with the same `AbortError`
exception, so `mapErrorToStatus` classifies it as `timeout`, the two
triggers produce identical `PortResult`s, and such results are not
discarded: the host aggregation keeps one result per requested port
and computes `responded` over them, so a host whose probes were all
aborted counts as all-timeout (`responded = true`), exactly like
genuine deadline timeouts. -/
theorem C10_abort_classified_timeout (trig trig2 : AbortTrigger) (msg : Str)
    (port : Int) (ip : Str) (ports : List Int) :
    mapErrorToStatus (abortException trig msg) = .timeout ∧
    scanPort port (.failure (abortException trig msg)) =
      scanPort port (.failure (abortException trig2 msg)) ∧
    (scanPort port (.failure (abortException trig msg))).status = .timeout ∧
    (scanPort port (.failure (abortException trig msg))).errorMessage = none ∧
    (scanHost ip ports (fun _ => .failure (abortException trig msg))).ports.length =
      ports.length ∧
    (scanHost ip ports (fun _ => .failure (abortException trig msg))).responded = true := by
  have hstat : ∀ p : Int,
      (scanPort p (.failure (abortException trig msg))).status = .timeout := fun p => rfl
  have hall : (ports.map (fun p => scanPort p (.failure (abortException trig msg)))).all
      isTimeout = true := by
    rw [List.all_eq_true]
    intro r hr
    rw [List.mem_map] at hr
    obtain ⟨p, _, rfl⟩ := hr
    rfl
  refine ⟨rfl, rfl, hstat port, rfl, by simp [scanHost], ?_⟩
  show respondedCalc (ports.map (fun p => scanPort p (.failure (abortException trig msg)))) = true
  unfold respondedCalc
  rw [hall, Bool.or_true]

/-! ## Claim C1 -/

theorem isOpen_iff (r : PortResult) : isOpen r = true ↔ r.status = .open_ := by
  cases h : r.status <;> simp [isOpen, h]

theorem isTimeout_iff (r : PortResult) : isTimeout r = true ↔ r.status = .timeout := by
  cases h : r.status <;> simp [isTimeout, h]

theorem respondedCalc_iff (rs : List PortResult) :
    respondedCalc rs = true ↔
      ((∃ r ∈ rs, r.status = .open_) ∨ ∀ r ∈ rs, r.status = .timeout) := by
  unfold respondedCalc
  rw [Bool.or_eq_true, List.any_eq_true, List.all_eq_true]
  constructor
  · rintro (⟨r, hr, ho⟩ | hall)
    · exact Or.inl ⟨r, hr, (isOpen_iff r).mp ho⟩
    · exact Or.inr (fun r hr => (isTimeout_iff r).mp (hall r hr))
  · rintro (⟨r, hr, ho⟩ | hall)
    · exact Or.inl ⟨r, hr, (isOpen_iff r).mpr ho⟩
    · exact Or.inr (fun r hr => (isTimeout_iff r).mpr (hall r hr))

theorem mem_runFrom_results (ports : List Int) (oracle : HostOracle)
    (cancel : Nat → Bool) :
    ∀ (q : List Str) (k : Nat) (hr : HostResult),
      hr ∈ (runFrom ports oracle cancel q k).results →
      ∃ ip, hr = processHost ports oracle ip := by
  intro q
  induction q with
  | nil =>
    intro k hr h
    simp [runFrom] at h
  | cons ip rest ih =>
    intro k hr h
    unfold runFrom at h
    split at h
    · simp at h
    · split at h
      · simp at h
      · simp only [List.mem_cons] at h
        rcases h with rfl | h
        · exact ⟨ip, rfl⟩
        · exact ih (k + 1) hr h

/-- C1: every HostResult published by the worker loop — whether built
by `scanHost` or by the internal-failure fallback — has
`responded = true` exactly when some port has status `open` or every
port has status `timeout` (the fallback hard-codes `false`, which
agrees because its ports, one per requested port of a non-empty port
list, are all `error`). -/
theorem C1_responded_iff (targets : List Str) (ports : List Int)
    (oracle : HostOracle) (cancel : Nat → Bool) (hp : ports ≠ []) :
    ∀ hr ∈ (runScan targets ports oracle cancel).results,
      (hr.responded = true ↔
        ((∃ r ∈ hr.ports, r.status = .open_) ∨ ∀ r ∈ hr.ports, r.status = .timeout)) := by
  intro hr hmem
  obtain ⟨ip, rfl⟩ := mem_runFrom_results ports oracle cancel targets 0 hr hmem
  unfold processHost
  cases ho : oracle ip with
  | ok probe =>
    exact respondedCalc_iff (scanHost ip ports probe).ports
  | error msg =>
    rw [show (mkFailedHost ip msg ports).responded = false from rfl]
    constructor
    · intro h
      exact absurd h (by simp)
    · rintro (⟨r, hr2, hstat⟩ | hall)
      · rw [show (mkFailedHost ip msg ports).ports = ports.map (fun port =>
          { port := port, protocol := protocolForPort port, status := .error
            latency := none
            errorMessage := some (msg.getD "Falha desconhecida".data) }) from rfl,
          List.mem_map] at hr2
        obtain ⟨p, _, rfl⟩ := hr2
        simp at hstat
      · obtain ⟨p, hp2⟩ := List.exists_mem_of_ne_nil ports hp
        have h2 := hall _ (List.mem_map_of_mem (fun port =>
          ({ port := port, protocol := protocolForPort port, status := .error
             latency := none
             errorMessage := some (msg.getD "Falha desconhecida".data) } : PortResult)) hp2)
        simp at h2

/-- Witness for C1: a one-host run whose worker throws, published via
the fallback; its single port is `error`, so `responded` is false and
the iff instance holds. -/
theorem C1_responded_iff_witness :
    (([80] : List Int) ≠ []) ∧
    ((mkFailedHost "10.0.0.1".data none [80]).responded = true ↔
      ((∃ r ∈ (mkFailedHost "10.0.0.1".data none [80]).ports, r.status = .open_) ∨
        ∀ r ∈ (mkFailedHost "10.0.0.1".data none [80]).ports, r.status = .timeout)) :=
  ⟨by decide,
    C1_responded_iff ["10.0.0.1".data] [80] (fun _ => .error none) (fun _ => false)
      (by decide) (mkFailedHost "10.0.0.1".data none [80]) (by decide)⟩

/-! ## Claim C5 -/

theorem runFrom_no_cancel (ports : List Int) (oracle : HostOracle) :
    ∀ (q : List Str) (k : Nat), (∀ t ∈ q, t ≠ []) →
      runFrom ports oracle (fun _ => false) q k =
        ⟨q.map (processHost ports oracle), k + q.length,
          List.range' k (q.length + 1)⟩ := by
  intro q
  induction q with
  | nil =>
    intro k _
    show runFrom ports oracle (fun _ => false) [] k = _
    unfold runFrom
    simp [List.range']
  | cons ip rest ih =>
    intro k hq
    unfold runFrom
    rw [if_neg (by simp)]
    rw [if_neg (by
      simp only [List.isEmpty_iff]
      exact hq ip (List.mem_cons_self ip rest))]
    rw [ih (k + 1) (fun t ht => hq t (List.mem_cons_of_mem ip ht))]
    show RunOutcome.mk _ _ _ = RunOutcome.mk _ _ _
    rw [RunOutcome.mk.injEq]
    refine ⟨rfl, by simp; omega, ?_⟩
    rw [show (ip :: rest).length + 1 = (rest.length + 1) + 1 by simp]
    simp [List.range'_succ]

/-- C5: on a run with no cancellation over non-empty target strings,
the sequential worker loop produces exactly one HostResult per
dequeued target, in dequeue order (the results are precisely the
per-target `processHost` outputs, so a worker-internal error still
contributes exactly one fallback result, every port `error` carrying
the shared message), and the completed-host counter is incremented
exactly once per host: its trace of successive values is
0, 1, ..., totalTargets with no skip or double count, ending at
totalTargets. -/
theorem C5_one_result_one_increment (targets : List Str) (ports : List Int)
    (oracle : HostOracle) (hne : ∀ t ∈ targets, t ≠ []) :
    (runScan targets ports oracle (fun _ => false)).results =
      targets.map (processHost ports oracle) ∧
    (runScan targets ports oracle (fun _ => false)).results.length = targets.length ∧
    (runScan targets ports oracle (fun _ => false)).progress = targets.length ∧
    (runScan targets ports oracle (fun _ => false)).trace =
      List.range (targets.length + 1) ∧
    (∀ ip msg, oracle ip = .error msg →
      (processHost ports oracle ip).ports.length = ports.length ∧
      ∀ r ∈ (processHost ports oracle ip).ports,
        r.status = .error ∧
        r.errorMessage = some (msg.getD "Falha desconhecida".data)) := by
  have h := runFrom_no_cancel ports oracle targets 0 hne
  unfold runScan
  rw [h]
  refine ⟨rfl, by simp, by simp, ?_, ?_⟩
  · show List.range' 0 (targets.length + 1) = List.range (targets.length + 1)
    rw [List.range_eq_range']
  · intro ip msg ho
    unfold processHost
    rw [ho]
    constructor
    · simp [mkFailedHost]
    · intro r hr
      rw [show (mkFailedHost ip msg ports).ports = ports.map (fun port =>
        { port := port, protocol := protocolForPort port, status := .error
          latency := none
          errorMessage := some (msg.getD "Falha desconhecida".data) }) from rfl,
        List.mem_map] at hr
      obtain ⟨p, _, rfl⟩ := hr
      exact ⟨rfl, rfl⟩

/-- Witness for C5: a one-host run whose worker throws; the loop still
appends exactly the fallback result for that host. -/
theorem C5_one_result_one_increment_witness :
    (∀ t ∈ ["10.0.0.1".data], t ≠ ([] : Str)) ∧
    (runScan ["10.0.0.1".data] [80] (fun _ => .error none) (fun _ => false)).results =
      ["10.0.0.1".data].map (processHost [80] (fun _ => .error none)) :=
  ⟨by decide,
    (C5_one_result_one_increment ["10.0.0.1".data] [80] (fun _ => .error none)
      (by decide)).1⟩

/-! ## Claim C7 -/

/-- C7 counterexample: calling `handleCancel` when the system is Idle
(the initial state: no scan running, no status message) does have an
observable effect — the status message becomes "Varredura interrompida
pelo usuário." and the cancel-requested flag is set — so the resulting
state differs from the Idle state it was called in. -/
theorem C7_cancel_when_idle_counterexample :
    handleCancel initialState ≠ initialState ∧
    initialState.isScanning = false ∧
    initialState.statusMessage = none ∧
    (handleCancel initialState).statusMessage = some interruptedMsg ∧
    (handleCancel initialState).cancelRequested = true :=
  ⟨by decide, rfl, rfl, rfl, rfl⟩

/-- C7 amended: `handleCancel` is a total function (it never raises)
and is idempotent — a second consecutive call produces no further
change. Calling it in any state, Idle included, leaves the results
and both progress counters untouched; but it does set the
cancel-requested flag, clear the controllers, overwrite the status
message with the interrupted message, and clear the scanning flag —
on the Idle state this is an observable change of the status message
and the cancel flag (the flag is reset when the next scan starts, so
a later run is unaffected). -/
theorem C7_amended_cancel_idempotent :
    (∀ s : UiState, handleCancel (handleCancel s) = handleCancel s) ∧
    (∀ s : UiState,
      (handleCancel s).results = s.results ∧
      (handleCancel s).progressCurrent = s.progressCurrent ∧
      (handleCancel s).progressTotal = s.progressTotal ∧
      (handleCancel s).cancelRequested = true ∧
      (handleCancel s).controllers = [] ∧
      (handleCancel s).statusMessage = some interruptedMsg ∧
      (handleCancel s).isScanning = false) ∧
    handleCancel initialState =
      { initialState with cancelRequested := true,
                          statusMessage := some interruptedMsg } :=
  ⟨fun _ => rfl, fun _ => ⟨rfl, rfl, rfl, rfl, rfl, rfl, rfl⟩, rfl⟩

/-! ## Claim C8 -/

theorem collapseGo_no_nl : ∀ (fuel : Nat) (s : Str), s.length ≤ fuel →
    ∀ c ∈ collapseGo fuel s, isNl c = false := by
  intro fuel
  induction fuel with
  | zero =>
    intro s hs c hc
    have : s = [] := by
      cases s with
      | nil => rfl
      | cons a t => simp at hs
    subst this
    simp [collapseGo] at hc
  | succ fuel ih =>
    intro s hs c hc
    cases s with
    | nil => simp [collapseGo] at hc
    | cons a t =>
      unfold collapseGo at hc
      split at hc
      · rw [List.mem_cons] at hc
        rcases hc with rfl | hc
        · decide
        · exact ih (t.dropWhile isNl)
            (le_trans (List.dropWhile_sublist isNl).length_le (by simpa using hs)) c hc
      · rw [List.mem_cons] at hc
        rcases hc with rfl | hc
        · rename_i hnot
          simpa using hnot
        · exact ih t (by simpa using hs) c hc

theorem collapseNewlines_no_nl (s : Str) (c : Char) (hc : c ∈ collapseNewlines s) :
    isNl c = false :=
  collapseGo_no_nl s.length s le_rfl c hc

theorem mem_intToStr (v : Int) (c : Char) (hc : c ∈ intToStr v) :
    c = '-' ∨ c.isDigit = true := by
  unfold intToStr at hc
  split at hc
  · rw [List.mem_cons] at hc
    rcases hc with rfl | hc
    · exact Or.inl rfl
    · exact Or.inr (mem_natToStr_isDigit _ c hc)
  · exact Or.inr (mem_natToStr_isDigit _ c hc)

theorem csvLine_no_nl (ip : Str) (r : PortResult) (hip : ('\n' : Char) ∉ ip) :
    ('\n' : Char) ∉ csvLine ip r := by
  obtain ⟨port, proto, status, lat, msg⟩ := r
  intro hmem
  unfold csvLine at hmem
  rcases mem_joinSep ',' _ _ hmem with h | ⟨p, hp, hcp⟩
  · exact absurd h (by decide)
  · simp only [List.mem_cons, List.not_mem_nil, or_false] at hp
    rcases hp with rfl | rfl | rfl | rfl | rfl | rfl
    · exact hip hcp
    · rcases mem_intToStr _ _ hcp with h | h
      · exact absurd h (by decide)
      · exact absurd h (by decide)
    · cases proto <;> revert hcp <;> decide
    · cases status <;> revert hcp <;> decide
    · cases lat with
      | none => simp at hcp
      | some v =>
        rcases mem_intToStr _ _ hcp with h | h
        · exact absurd h (by decide)
        · exact absurd h (by decide)
    · cases msg with
      | none => simp at hcp
      | some m =>
        have hcp2 : ('\n' : Char) ∈
            (if List.isEmpty m = true then ([] : Str) else collapseNewlines m) := hcp
        cases hm : m.isEmpty with
        | true =>
          rw [hm] at hcp2
          simp at hcp2
        | false =>
          rw [hm] at hcp2
          simp only [Bool.false_eq_true, if_false] at hcp2
          exact absurd (collapseNewlines_no_nl m '\n' hcp2) (by decide)

/-- C8: for every HostResult sequence whose addresses contain no
newline (every address the scanner produces is dotted-quad text), the
CSV serialization, split back into rows at every line feed, is exactly
the fixed header row followed by one data row per (host, port) pair:
1 + sum of ports.length rows, hosts in order, each row built from the
address, the port, the uppercased protocol, the uppercased status, the
latency or empty, and the error message with newline runs collapsed to
spaces or empty. -/
theorem C8_csv_row_structure (hosts : List HostResult)
    (hip : ∀ h ∈ hosts, ('\n' : Char) ∉ h.ip) :
    splitChar '\n' (serializeCsv hosts) = csvLines hosts ∧
    (csvLines hosts).head? = some csvHeader ∧
    (csvLines hosts).length = 1 + (hosts.map (fun h => h.ports.length)).sum := by
  refine ⟨?_, rfl, ?_⟩
  · unfold serializeCsv
    apply splitChar_joinSep
    · simp [csvLines]
    · intro p hp
      unfold csvLines at hp
      rcases List.mem_cons.mp hp with rfl | hp2
      · decide
      · rw [List.mem_flatten] at hp2
        obtain ⟨l, hl, hpl⟩ := hp2
        rw [List.mem_map] at hl
        obtain ⟨h, hh, rfl⟩ := hl
        rw [List.mem_map] at hpl
        obtain ⟨r, _, rfl⟩ := hpl
        exact csvLine_no_nl h.ip r (hip h hh)
  · unfold csvLines
    simp only [List.length_cons, List.length_flatten, List.map_map]
    rw [Nat.add_comm]
    congr 1
    apply congrArg
    apply List.map_congr_left
    intro h _
    simp

/-- Witness for C8: one host with an open port and one with an error
message containing a newline run, which the export collapses. -/
theorem C8_csv_row_structure_witness :
    (∀ h ∈ [HostResult.mk "10.0.0.1".data
        [PortResult.mk 80 .http .open_ (some 12) none,
         PortResult.mk 443 .https .error none (some "a\r\nb".data)] true],
      ('\n' : Char) ∉ h.ip) ∧
    splitChar '\n' (serializeCsv [HostResult.mk "10.0.0.1".data
        [PortResult.mk 80 .http .open_ (some 12) none,
         PortResult.mk 443 .https .error none (some "a\r\nb".data)] true]) =
      csvLines [HostResult.mk "10.0.0.1".data
        [PortResult.mk 80 .http .open_ (some 12) none,
         PortResult.mk 443 .https .error none (some "a\r\nb".data)] true] :=
  ⟨by decide,
    (C8_csv_row_structure [HostResult.mk "10.0.0.1".data
        [PortResult.mk 80 .http .open_ (some 12) none,
         PortResult.mk 443 .https .error none (some "a\r\nb".data)] true]
      (by decide)).1⟩
